import Mathlib

/-! proyecto-arc: the relay server `servidor.cpp`

A shallow embedding of the two control loops of `servidor.cpp`:

* `grupo_thread`, the per-group worker: one readiness event is handled by
  `grupo_thread_evento`; the body of its `switch` is `maneja_mensaje`; the three
  broadcast loops are `difusion_saludo`, `difusion_posicion` and
  `difusion_desconexion`; the erase loop is `borra_cliente`.
* `main`, the router: the branch that handles data on an already accepted
  connection is `main_datos_cliente`.

System calls are the environment.  What a `recv`/`read` returned is part of the
event record; what the `k`-th `send` call of an event returns is given by a
function `rc_send : Nat → Int`; every `send`, `close` and `epoll_ctl(DEL)` the
code issues is recorded, in program order, in a trace of `Accion`.
Console output (`printf`, `perror`, `cout`) is not modelled.
-/

namespace Arc

/-! ## Wire data (`mensajes.h` is not part of the sources) -/

/-- Modelled from the spec: the tag constants of `mensajes.h` that `grupo_thread` names.
Their values are parameters.  The five constants used as `case` labels of one
`switch` are pairwise different (C++ rejects a repeated label). -/
structure Etiquetas where
  MENSAJE_SALUDO : Nat
  MENSAJE_POSICION : Nat
  MENSAJE_RECONOCIMIENTO : Nat
  MENSAJE_NOMBRE_REQUEST : Nat
  MENSAJE_NOMBRE_REPLY : Nat
  MENSAJE_DESCONEXION : Nat
  distintas : [MENSAJE_SALUDO, MENSAJE_POSICION, MENSAJE_RECONOCIMIENTO,
    MENSAJE_NOMBRE_REQUEST, MENSAJE_NOMBRE_REPLY].Nodup

/-- Modelled from the spec: `struct mensaje_saludo` (Greeting: a fixed-length name buffer). -/
structure mensaje_saludo where
  nombre : List Nat
deriving DecidableEq, Repr

/-- Modelled from the spec: `struct mensaje_posicion` (Position: origin, sequence, x, y, z),
with the field names `cliente.cpp` uses. -/
structure mensaje_posicion where
  cliente_id_origen : Nat
  numero_secuencia : Nat
  posicion_x : Int
  posicion_y : Int
  posicion_z : Int
deriving DecidableEq, Repr

/-- Modelled from the spec: `struct mensaje_reconocimiento` (Acknowledgment: origin,
destination, sequence). -/
structure mensaje_reconocimiento where
  cliente_id_origen : Nat
  cliente_id_destino : Nat
  numero_secuencia : Nat
deriving DecidableEq, Repr

/-- Modelled from the spec: `struct mensaje_nombre_request` (NameRequest: origin, destination). -/
structure mensaje_nombre_request where
  cliente_id_origen : Nat
  cliente_id_destino : Nat
deriving DecidableEq, Repr

/-- Modelled from the spec: `struct mensaje_nombre_reply` (NameReply: origin, destination, name). -/
structure mensaje_nombre_reply where
  cliente_id_origen : Nat
  cliente_id_destino : Nat
  nombre : List Nat
deriving DecidableEq, Repr

/-- Modelled from the spec: `struct mensaje_desconexion` (Disconnect: origin). -/
structure mensaje_desconexion where
  cliente_id_origen : Nat
deriving DecidableEq, Repr

/-- The struct that was `memcpy`-ed to `buffer[1]`. -/
inductive Cuerpo where
  | saludo (m : mensaje_saludo)
  | posicion (m : mensaje_posicion)
  | reconocimiento (m : mensaje_reconocimiento)
  | nombre_request (m : mensaje_nombre_request)
  | nombre_reply (m : mensaje_nombre_reply)
  | desconexion (m : mensaje_desconexion)
deriving DecidableEq, Repr

/-- The bytes handed to `send`: `buffer[0]` is the tag byte, the struct follows, and the
length passed is one byte plus the size of that struct. -/
structure Paquete where
  tipo : Nat
  cuerpo : Cuerpo
deriving DecidableEq, Repr

/-- A system call with an effect outside the worker, as issued by the code. -/
inductive Accion where
  | epoll_ctl_del (fd : Nat)
  | close (fd : Nat)
  | send (fd : Nat) (buffer : Paquete) (rc : Int)
deriving DecidableEq, Repr

/-! ## The group worker `grupo_thread` -/

/-- One ready descriptor as `grupo_thread` sees it: `socket = events[i].data.fd`, `rc` and
`tipo_mensaje` are the result of the one-byte `recv`, `rc_cuerpo` is the result of the payload
`recv` chosen by the tag, and the struct fields are what the local struct of that name holds
once that `recv` has returned. -/
structure Evento where
  socket : Nat
  rc : Int
  tipo_mensaje : Nat
  rc_cuerpo : Int
  saludo : mensaje_saludo
  posicion : mensaje_posicion
  reconocimiento : mensaje_reconocimiento
  nombre_request : mensaje_nombre_request
  nombre_reply : mensaje_nombre_reply

/-- The membership vector `clientes` after an event, and the calls issued while handling it. -/
structure Resultado where
  clientes : List Nat
  traza : List Accion
deriving DecidableEq, Repr

/-- The erase loop (lines 161-170): the first entry equal to `socket` is erased, then `break`. -/
def borra_cliente (socket : Nat) : List Nat → List Nat
  | [] => []
  | c :: resto => if c = socket then resto else c :: borra_cliente socket resto

/-- The Disconnect loop (lines 171-186): for each entry, `send` is repeated while it returns
a negative value.  `k` counts the `send` calls made so far; the first argument bounds the number
of calls still allowed, and `none` means the bound was reached inside the loop. -/
def difusion_desconexion (rc_send : Nat → Int) (buffer : Paquete) :
    Nat → Nat → List Nat → Option (List Accion)
  | _, _, [] => some []
  | 0, _, _ :: _ => none
  | fuel + 1, k, c :: resto =>
    if rc_send k < 0 then
      (difusion_desconexion rc_send buffer fuel (k + 1) (c :: resto)).map
        (fun t => Accion.send c buffer (rc_send k) :: t)
    else
      (difusion_desconexion rc_send buffer fuel (k + 1) resto).map
        (fun t => Accion.send c buffer (rc_send k) :: t)

/-- The Disconnect loop (lines 171-186) observed while it runs: the `send` calls it has issued
once at most `n` calls were made, in order.  Same control flow as `difusion_desconexion`; the
list stops growing when the loop is left. -/
def intentos_desconexion (rc_send : Nat → Int) (buffer : Paquete) :
    Nat → Nat → List Nat → List Accion
  | _, _, [] => []
  | 0, _, _ :: _ => []
  | n + 1, k, c :: resto =>
    if rc_send k < 0 then
      Accion.send c buffer (rc_send k) :: intentos_desconexion rc_send buffer n (k + 1) (c :: resto)
    else
      Accion.send c buffer (rc_send k) :: intentos_desconexion rc_send buffer n (k + 1) resto

/-- The Greeting loop (lines 221-230): one `send` per entry, `break` on a negative result. -/
def difusion_saludo (rc_send : Nat → Int) (buffer : Paquete) : Nat → List Nat → List Accion
  | _, [] => []
  | k, c :: resto =>
    if rc_send k < 0 then [Accion.send c buffer (rc_send k)]
    else Accion.send c buffer (rc_send k) :: difusion_saludo rc_send buffer (k + 1) resto

/-- The Position loop (lines 257-269): entries equal to `socket` are skipped, one `send` per
other entry, `break` on a negative result. -/
def difusion_posicion (rc_send : Nat → Int) (buffer : Paquete) (socket : Nat) :
    Nat → List Nat → List Accion
  | _, [] => []
  | k, c :: resto =>
    if c ≠ socket then
      if rc_send k < 0 then [Accion.send c buffer (rc_send k)]
      else Accion.send c buffer (rc_send k) :: difusion_posicion rc_send buffer socket (k + 1) resto
    else difusion_posicion rc_send buffer socket k resto

/-- The Disconnect buffer (lines 151-157): `buffer[0] = MENSAJE_DESCONEXION`, followed by a
`mensaje_desconexion` whose `cliente_id_origen` is the descriptor that was closed. -/
def buffer_desconexion (et : Etiquetas) (socket : Nat) : Paquete :=
  ⟨et.MENSAJE_DESCONEXION, Cuerpo.desconexion ⟨socket⟩⟩

/-- The `switch (tipo_mensaje)` of lines 196-369, entered when the tag `recv` returned a
positive value. -/
def maneja_mensaje (et : Etiquetas) (rc_send : Nat → Int) (clientes : List Nat) (ev : Evento) :
    Resultado :=
  if ev.tipo_mensaje = et.MENSAJE_SALUDO then
    if ev.rc_cuerpo < 0 then ⟨clientes, []⟩
    else
      ⟨clientes ++ [ev.socket],
        difusion_saludo rc_send ⟨ev.tipo_mensaje, Cuerpo.saludo ev.saludo⟩ 0 clientes⟩
  else if ev.tipo_mensaje = et.MENSAJE_POSICION then
    if ev.rc_cuerpo < 0 then ⟨clientes, []⟩
    else
      ⟨clientes,
        difusion_posicion rc_send ⟨ev.tipo_mensaje, Cuerpo.posicion ev.posicion⟩ ev.socket 0
          clientes⟩
  else if ev.tipo_mensaje = et.MENSAJE_RECONOCIMIENTO then
    if ev.rc_cuerpo < 0 then ⟨clientes, []⟩
    else
      ⟨clientes,
        [Accion.send ev.reconocimiento.cliente_id_destino
          ⟨ev.tipo_mensaje, Cuerpo.reconocimiento ev.reconocimiento⟩ (rc_send 0)]⟩
  else if ev.tipo_mensaje = et.MENSAJE_NOMBRE_REQUEST then
    if ev.rc_cuerpo < 0 then ⟨clientes, []⟩
    else
      ⟨clientes,
        [Accion.send ev.nombre_request.cliente_id_destino
          ⟨ev.tipo_mensaje, Cuerpo.nombre_request ev.nombre_request⟩ (rc_send 0)]⟩
  else if ev.tipo_mensaje = et.MENSAJE_NOMBRE_REPLY then
    if ev.rc_cuerpo < 0 then ⟨clientes, []⟩
    else
      ⟨clientes,
        [Accion.send ev.nombre_reply.cliente_id_destino
          ⟨ev.tipo_mensaje, Cuerpo.nombre_reply ev.nombre_reply⟩ (rc_send 0)]⟩
  else ⟨clientes, []⟩

/-- The body of the `for` over ready descriptors (lines 130-370).  When the tag `recv` returns
`rc <= 0` the descriptor is unregistered and closed, the Disconnect buffer is built with
`cliente_id_origen = socket`, the erase loop runs, then the Disconnect loop runs over what is
left of `clientes`. -/
def grupo_thread_evento (et : Etiquetas) (rc_send : Nat → Int) (fuel : Nat)
    (clientes : List Nat) (ev : Evento) : Option Resultado :=
  if ev.rc ≤ 0 then
    (difusion_desconexion rc_send ⟨et.MENSAJE_DESCONEXION, Cuerpo.desconexion ⟨ev.socket⟩⟩
        fuel 0 (borra_cliente ev.socket clientes)).map
      (fun t => ⟨borra_cliente ev.socket clientes,
        Accion.epoll_ctl_del ev.socket :: Accion.close ev.socket :: t⟩)
  else some (maneja_mensaje et rc_send clientes ev)

/-- The worker loop over a finite run of events, each with the results of its `send` calls.
`clientes` is threaded through; the traces are concatenated. -/
def grupo_thread (et : Etiquetas) (fuel : Nat) :
    List Nat → List (Evento × (Nat → Int)) → Option Resultado
  | clientes, [] => some ⟨clientes, []⟩
  | clientes, (ev, rc_send) :: resto =>
    match grupo_thread_evento et rc_send fuel clientes ev with
    | none => none
    | some r =>
      (grupo_thread et fuel r.clientes resto).map (fun r2 => ⟨r2.clientes, r.traza ++ r2.traza⟩)

/-- A membership vector the worker can hold: the vector starts empty (line 101) and changes
only through handled events. -/
def Alcanzable (et : Etiquetas) (clientes : List Nat) : Prop :=
  ∃ fuel entradas traza, grupo_thread et fuel [] entradas = some ⟨clientes, traza⟩

/-! ## The router `main` -/

/-- What `main` holds between events: the descriptors registered on its own epoll instance
`epoll_fd`, the globals `grupos_sets` (group identifier to epoll descriptor) and `grupos_hilos`
(one entry per started worker thread), and the local vector `clientes_conocidos`. -/
structure Router where
  registrados : List Nat
  grupos_sets : List (Int × Nat)
  grupos_hilos : List Nat
  clientes_conocidos : List Nat
deriving DecidableEq, Repr

/-- A readable event on a descriptor other than the listening one, as `main` sees it
(lines 451-487): `rc` and `tipo_mensaje` are the result of the one-byte `read`, `rc_conexion`
is the result of the `read` of `struct mensaje_conexion` (never tested by the code) and `grupo`
is what `nueva_conexion.grupo` holds after it. -/
structure EventoRouter where
  socket : Nat
  rc : Int
  tipo_mensaje : Nat
  rc_conexion : Int
  grupo : Int
deriving DecidableEq, Repr

/-- The `else` branch of the event loop of `main` (lines 451-487).  A failed tag `read` or a
negative group closes the descriptor and removes it from the epoll instance of `main`;
otherwise the only statement executed is `clientes_conocidos.push_back(socket)`. -/
def main_datos_cliente (r : Router) (ev : EventoRouter) : Router × List Accion :=
  if ev.rc ≤ 0 then
    (⟨r.registrados.filter (fun fd => fd ≠ ev.socket), r.grupos_sets, r.grupos_hilos,
        r.clientes_conocidos⟩,
      [Accion.close ev.socket, Accion.epoll_ctl_del ev.socket])
  else if ev.grupo < 0 then
    (⟨r.registrados.filter (fun fd => fd ≠ ev.socket), r.grupos_sets, r.grupos_hilos,
        r.clientes_conocidos⟩,
      [Accion.close ev.socket, Accion.epoll_ctl_del ev.socket])
  else
    (⟨r.registrados, r.grupos_sets, r.grupos_hilos, r.clientes_conocidos ++ [ev.socket]⟩, [])

/-- The descriptor that the map `grupos_sets` holds for `grupo`, if it has an entry for it
(the semantics of `std::map`; `main` itself never consults the map). -/
def busca_grupo (grupo : Int) : List (Int × Nat) → Option Nat
  | [] => none
  | (g, fd) :: resto => if g = grupo then some fd else busca_grupo grupo resto

/-! ## Reading a trace -/

/-- The `send` calls of a trace, in order: destination descriptor and buffer. -/
def envios : List Accion → List (Nat × Paquete)
  | [] => []
  | Accion.send fd buffer _ :: t => (fd, buffer) :: envios t
  | Accion.epoll_ctl_del _ :: t => envios t
  | Accion.close _ :: t => envios t

/-- The `send` calls of a trace that did not return a negative value. -/
def entregas : List Accion → List (Nat × Paquete)
  | [] => []
  | Accion.send fd buffer rc :: t =>
    if rc < 0 then entregas t else (fd, buffer) :: entregas t
  | Accion.epoll_ctl_del _ :: t => entregas t
  | Accion.close _ :: t => entregas t

/-- How many of the `n` send calls numbered `k`, ..., `k + n - 1` do not return a negative
value. -/
def exitos (rc_send : Nat → Int) : Nat → Nat → Nat
  | _, 0 => 0
  | k, n + 1 => (if rc_send k < 0 then 0 else 1) + exitos rc_send (k + 1) n

/-- How many entries of a list of sends are addressed to descriptor `fd`. -/
def veces (fd : Nat) (l : List (Nat × Paquete)) : Nat :=
  (l.filter (fun x => x.1 = fd)).length

/-! ## Sample data for the concrete evaluations -/

/-- Sample tag values (the real ones are in `mensajes.h`). -/
def etq : Etiquetas := ⟨2, 3, 4, 5, 6, 7, by decide⟩

/-- Every `send` returns a non-negative value. -/
def rc_bien : Nat → Int := fun _ => 1

/-- An event whose tag `recv` returned one byte `tipo` and whose payload `recv` returned 1. -/
def evento_base (socket tipo : Nat) : Evento :=
  ⟨socket, 1, tipo, 1, ⟨[74, 111]⟩, ⟨socket, 1, 100, 150, -200⟩, ⟨socket, 0, 1⟩,
    ⟨socket, 0⟩, ⟨socket, 0, [74, 111]⟩⟩

/-- The tag `recv` on `socket` returned zero: the peer closed the connection. -/
def evento_cierre (socket : Nat) : Evento :=
  ⟨socket, 0, 0, 0, ⟨[]⟩, ⟨0, 0, 0, 0, 0⟩, ⟨0, 0, 0⟩, ⟨0, 0⟩, ⟨0, 0, []⟩⟩

/-- An Acknowledgment read from `socket`, addressed to `destino`. -/
def evento_reconocimiento (socket destino : Nat) : Evento :=
  ⟨socket, 1, etq.MENSAJE_RECONOCIMIENTO, 12, ⟨[]⟩, ⟨0, 0, 0, 0, 0⟩, ⟨socket, destino, 1⟩,
    ⟨0, 0⟩, ⟨0, 0, []⟩⟩

/-- Three Greetings, all sends succeeding: descriptor 9 greets twice, then descriptor 7. -/
def corrida_997 : List (Evento × (Nat → Int)) :=
  [(evento_base 9 etq.MENSAJE_SALUDO, rc_bien), (evento_base 9 etq.MENSAJE_SALUDO, rc_bien),
   (evento_base 7 etq.MENSAJE_SALUDO, rc_bien)]

/-- One Greeting from descriptor 7. -/
def corrida_7 : List (Evento × (Nat → Int)) :=
  [(evento_base 7 etq.MENSAJE_SALUDO, rc_bien)]

/-- Two Greetings from descriptor 7. -/
def corrida_77 : List (Evento × (Nat → Int)) :=
  [(evento_base 7 etq.MENSAJE_SALUDO, rc_bien), (evento_base 7 etq.MENSAJE_SALUDO, rc_bien)]

/-- Greetings from descriptors 7, 8 and 9, in that order. -/
def corrida_789 : List (Evento × (Nat → Int)) :=
  [(evento_base 7 etq.MENSAJE_SALUDO, rc_bien), (evento_base 8 etq.MENSAJE_SALUDO, rc_bien),
   (evento_base 9 etq.MENSAJE_SALUDO, rc_bien)]

/-- Greetings from descriptor 7, then 8, then 7 again. -/
def corrida_787 : List (Evento × (Nat → Int)) :=
  [(evento_base 7 etq.MENSAJE_SALUDO, rc_bien), (evento_base 8 etq.MENSAJE_SALUDO, rc_bien),
   (evento_base 7 etq.MENSAJE_SALUDO, rc_bien)]

/-- One Greeting from descriptor 9. -/
def corrida_9 : List (Evento × (Nat → Int)) :=
  [(evento_base 9 etq.MENSAJE_SALUDO, rc_bien)]

/-- The first `send` of the event returns -1, every later one succeeds. -/
def rc_primero_falla : Nat → Int := fun k => if k = 0 then -1 else 1

/-- The router right after start-up and one `accept4`: the listening descriptor 3 and the new
connection 7 are registered on the epoll instance of `main`; no group exists yet. -/
def router_inicial : Router := ⟨[3, 7], [], [], []⟩

/-- A Join for group 3 read in full from descriptor 7 (one tag byte, four payload bytes). -/
def union_grupo_3 : EventoRouter := ⟨7, 1, 1, 4, 3⟩

/-- Every `send` returns -1. -/
def rc_mal : Nat → Int := fun _ => -1

/-! ## Broadcast loops when no send fails, and where they stop when one does -/

theorem veces_cons (fd : Nat) (x : Nat × Paquete) (l : List (Nat × Paquete)) :
    veces fd (x :: l) = (if x.1 = fd then 1 else 0) + veces fd l := by
  unfold veces
  by_cases h : x.1 = fd
  · simp [List.filter_cons, h]; omega
  · simp [List.filter_cons, h]

theorem veces_map (fd : Nat) (b : Paquete) (cs : List Nat) :
    veces fd (cs.map (fun c => (c, b))) = cs.count fd := by
  induction cs with
  | nil => rfl
  | cons c resto ih =>
    rw [List.map_cons, veces_cons, ih, List.count_cons]
    by_cases h : c = fd
    · simp [h]; omega
    · simp [h]

theorem envios_difusion_saludo_bien (rc_send : Nat → Int) (b : Paquete)
    (hbien : ∀ k, 0 ≤ rc_send k) (cs : List Nat) :
    ∀ k, envios (difusion_saludo rc_send b k cs) = cs.map (fun c => (c, b)) := by
  induction cs with
  | nil => intro k; rfl
  | cons c resto ih =>
    intro k
    have hk : ¬ rc_send k < 0 := not_lt.mpr (hbien k)
    simp [difusion_saludo, hk, envios, ih]

theorem envios_difusion_posicion_bien (rc_send : Nat → Int) (b : Paquete) (s : Nat)
    (hbien : ∀ k, 0 ≤ rc_send k) (cs : List Nat) :
    ∀ k, envios (difusion_posicion rc_send b s k cs) =
      (cs.filter (fun c => c ≠ s)).map (fun c => (c, b)) := by
  induction cs with
  | nil => intro k; rfl
  | cons c resto ih =>
    intro k
    have hk : ¬ rc_send k < 0 := not_lt.mpr (hbien k)
    by_cases hc : c = s
    · simp [difusion_posicion, hc, ih]
    · simp [difusion_posicion, hc, hk, envios, ih]

theorem envios_difusion_saludo_corte (rc_send : Nat → Int) (b : Paquete) (cs : List Nat) :
    ∀ k, ∃ n, n ≤ cs.length ∧ (∀ i, i < n → 0 ≤ rc_send (k + i)) ∧
      (n < cs.length → rc_send (k + n) < 0) ∧
      envios (difusion_saludo rc_send b k cs) = (cs.take (n + 1)).map (fun c => (c, b)) := by
  induction cs with
  | nil => intro k; exact ⟨0, le_refl _, by intro i hi; omega, by simp, rfl⟩
  | cons c resto ih =>
    intro k
    by_cases hk : rc_send k < 0
    · refine ⟨0, Nat.zero_le _, by intro i hi; omega, fun _ => by simpa using hk, ?_⟩
      simp [difusion_saludo, hk, envios]
    · obtain ⟨n, hn, hpre, hfallo, henv⟩ := ih (k + 1)
      refine ⟨n + 1, by simpa using hn, ?_, ?_, ?_⟩
      · intro i hi
        cases i with
        | zero => simpa using not_lt.mp hk
        | succ j =>
          have := hpre j (by omega)
          rwa [show k + (j + 1) = k + 1 + j by omega]
      · intro h
        have := hfallo (by simpa using h)
        rwa [show k + (n + 1) = k + 1 + n by omega]
      · simp [difusion_saludo, hk, envios, henv]

theorem envios_difusion_posicion_corte (rc_send : Nat → Int) (b : Paquete) (s : Nat)
    (cs : List Nat) :
    ∀ k, ∃ n, n ≤ (cs.filter (fun c => c ≠ s)).length ∧ (∀ i, i < n → 0 ≤ rc_send (k + i)) ∧
      (n < (cs.filter (fun c => c ≠ s)).length → rc_send (k + n) < 0) ∧
      envios (difusion_posicion rc_send b s k cs) =
        ((cs.filter (fun c => c ≠ s)).take (n + 1)).map (fun c => (c, b)) := by
  induction cs with
  | nil => intro k; exact ⟨0, le_refl _, by intro i hi; omega, by simp, rfl⟩
  | cons c resto ih =>
    intro k
    by_cases hc : c = s
    · obtain ⟨n, hn, hpre, hfallo, henv⟩ := ih k
      refine ⟨n, ?_, hpre, ?_, ?_⟩
      · simpa [List.filter_cons, hc] using hn
      · intro h
        exact hfallo (by simpa [List.filter_cons, hc] using h)
      · simp [difusion_posicion, hc, henv]
    · by_cases hk : rc_send k < 0
      · refine ⟨0, Nat.zero_le _, by intro i hi; omega, fun _ => by simpa using hk, ?_⟩
        simp [difusion_posicion, hc, hk, envios, List.filter_cons]
      · obtain ⟨n, hn, hpre, hfallo, henv⟩ := ih (k + 1)
        refine ⟨n + 1, by simpa [List.filter_cons, hc] using hn, ?_, ?_, ?_⟩
        · intro i hi
          cases i with
          | zero => simpa using not_lt.mp hk
          | succ j =>
            have := hpre j (by omega)
            rwa [show k + (j + 1) = k + 1 + j by omega]
        · intro h
          have := hfallo (by simpa [List.filter_cons, hc] using h)
          rwa [show k + (n + 1) = k + 1 + n by omega]
        · simp [difusion_posicion, hc, hk, envios, henv, List.filter_cons]

/-- In the `switch`, the tag `MENSAJE_POSICION` selects the Position case. -/
theorem maneja_mensaje_posicion (et : Etiquetas) (rc_send : Nat → Int) (clientes : List Nat)
    (ev : Evento) (htipo : ev.tipo_mensaje = et.MENSAJE_POSICION) (hcuerpo : 0 ≤ ev.rc_cuerpo) :
    maneja_mensaje et rc_send clientes ev =
      ⟨clientes, difusion_posicion rc_send ⟨et.MENSAJE_POSICION, Cuerpo.posicion ev.posicion⟩
        ev.socket 0 clientes⟩ := by
  have hd := et.distintas
  simp only [List.nodup_cons, List.mem_cons, not_or] at hd
  have hnc : ¬ ev.rc_cuerpo < 0 := not_lt.mpr hcuerpo
  simp [maneja_mensaje, hnc, htipo, Ne.symm hd.1.1]

/-- In the `switch`, the tag `MENSAJE_SALUDO` selects the Greeting case. -/
theorem maneja_mensaje_saludo (et : Etiquetas) (rc_send : Nat → Int) (clientes : List Nat)
    (ev : Evento) (htipo : ev.tipo_mensaje = et.MENSAJE_SALUDO) (hcuerpo : 0 ≤ ev.rc_cuerpo) :
    maneja_mensaje et rc_send clientes ev =
      ⟨clientes ++ [ev.socket],
        difusion_saludo rc_send ⟨et.MENSAJE_SALUDO, Cuerpo.saludo ev.saludo⟩ 0 clientes⟩ := by
  have hnc : ¬ ev.rc_cuerpo < 0 := not_lt.mpr hcuerpo
  simp [maneja_mensaje, hnc, htipo]

/-! ## Unicast kinds -/

/-- C3: for an Acknowledgment, NameRequest or NameReply that was read (tag `recv` positive,
payload `recv` not negative), whatever `clientes` holds, the trace is exactly one `send`; it is
addressed to the `cliente_id_destino` of the struct read and carries the tag byte followed by
that struct unchanged; `clientes` is not consulted and not changed. -/
theorem unicast_un_solo_envio (et : Etiquetas) (rc_send : Nat → Int) (clientes : List Nat)
    (ev : Evento) (fuel : Nat) (hrc : 0 < ev.rc) (hcuerpo : 0 ≤ ev.rc_cuerpo) :
    (ev.tipo_mensaje = et.MENSAJE_RECONOCIMIENTO →
      grupo_thread_evento et rc_send fuel clientes ev =
        some ⟨clientes, [Accion.send ev.reconocimiento.cliente_id_destino
          ⟨et.MENSAJE_RECONOCIMIENTO, Cuerpo.reconocimiento ev.reconocimiento⟩ (rc_send 0)]⟩) ∧
    (ev.tipo_mensaje = et.MENSAJE_NOMBRE_REQUEST →
      grupo_thread_evento et rc_send fuel clientes ev =
        some ⟨clientes, [Accion.send ev.nombre_request.cliente_id_destino
          ⟨et.MENSAJE_NOMBRE_REQUEST, Cuerpo.nombre_request ev.nombre_request⟩ (rc_send 0)]⟩) ∧
    (ev.tipo_mensaje = et.MENSAJE_NOMBRE_REPLY →
      grupo_thread_evento et rc_send fuel clientes ev =
        some ⟨clientes, [Accion.send ev.nombre_reply.cliente_id_destino
          ⟨et.MENSAJE_NOMBRE_REPLY, Cuerpo.nombre_reply ev.nombre_reply⟩ (rc_send 0)]⟩) := by
  have hd := et.distintas
  simp only [List.nodup_cons, List.mem_cons, List.mem_singleton, not_or, List.not_mem_nil,
    not_false_eq_true, List.nodup_nil, and_true] at hd
  obtain ⟨⟨h12, h13, h14, h15⟩, ⟨h23, h24, h25⟩, ⟨h34, h35⟩, h45⟩ := hd
  have hnrc : ¬ ev.rc ≤ 0 := not_le.mpr hrc
  have hnc : ¬ ev.rc_cuerpo < 0 := not_lt.mpr hcuerpo
  refine ⟨?_, ?_, ?_⟩
  · intro h
    simp [grupo_thread_evento, maneja_mensaje, hnrc, hnc, h, Ne.symm h13, Ne.symm h23]
  · intro h
    simp [grupo_thread_evento, maneja_mensaje, hnrc, hnc, h, Ne.symm h14, Ne.symm h24,
      Ne.symm h34]
  · intro h
    simp [grupo_thread_evento, maneja_mensaje, hnrc, hnc, h, Ne.symm h15, Ne.symm h25,
      Ne.symm h35, Ne.symm h45]


/-! ## Position broadcast -/

/-- C1 (as stated, refuted): the vector `[9, 9, 7]` is reached after descriptor 9 greets twice
and descriptor 7 once; 7 and 9 are members; every send succeeds; a Position read from 7 is then
sent to descriptor 9 twice, not once. -/
theorem posicion_dos_copias_contraejemplo :
    Alcanzable etq [9, 9, 7] ∧ 7 ∈ [9, 9, 7] ∧ 9 ∈ [9, 9, 7] ∧ (∀ k, 0 ≤ rc_bien k) ∧
    veces 9 (envios
      (maneja_mensaje etq rc_bien [9, 9, 7] (evento_base 7 etq.MENSAJE_POSICION)).traza) = 2 ∧
    ¬ veces 9 (envios
      (maneja_mensaje etq rc_bien [9, 9, 7] (evento_base 7 etq.MENSAJE_POSICION)).traza) = 1 := by
  refine ⟨⟨0, corrida_997, _, rfl⟩, by decide, by decide, ?_, by decide, by decide⟩
  intro k
  simp [rc_bien]

/-- C1 (amended): for every membership vector and every Position read from descriptor A, when
every send succeeds the sends of the event are, in vector order, one per entry different from
A, each carrying the tag byte followed by the struct read, unchanged.  So a member other than
A is sent the message as many times as it occurs in the vector, exactly once when it occurs
once, and nothing is sent to A; the vector is unchanged. -/
theorem posicion_un_envio_por_entrada (et : Etiquetas) (rc_send : Nat → Int)
    (clientes : List Nat) (ev : Evento) (fuel : Nat)
    (hrc : 0 < ev.rc) (htipo : ev.tipo_mensaje = et.MENSAJE_POSICION)
    (hcuerpo : 0 ≤ ev.rc_cuerpo) (hbien : ∀ k, 0 ≤ rc_send k) :
    ∃ r, grupo_thread_evento et rc_send fuel clientes ev = some r ∧
      r.clientes = clientes ∧
      envios r.traza = (clientes.filter (fun c => c ≠ ev.socket)).map
        (fun c => (c, (⟨et.MENSAJE_POSICION, Cuerpo.posicion ev.posicion⟩ : Paquete))) ∧
      (∀ b, b ≠ ev.socket → veces b (envios r.traza) = clientes.count b) ∧
      (∀ b, b ∈ clientes → b ≠ ev.socket → clientes.count b = 1 →
        veces b (envios r.traza) = 1) ∧
      veces ev.socket (envios r.traza) = 0 := by
  have hnrc : ¬ ev.rc ≤ 0 := not_le.mpr hrc
  have henv := envios_difusion_posicion_bien rc_send
    ⟨et.MENSAJE_POSICION, Cuerpo.posicion ev.posicion⟩ ev.socket hbien clientes 0
  have hveces : ∀ b, veces b (envios (difusion_posicion rc_send
      ⟨et.MENSAJE_POSICION, Cuerpo.posicion ev.posicion⟩ ev.socket 0 clientes)) =
      (clientes.filter (fun c => c ≠ ev.socket)).count b := by
    intro b
    rw [henv, veces_map]
  refine ⟨maneja_mensaje et rc_send clientes ev, by simp [grupo_thread_evento, hnrc], ?_⟩
  rw [maneja_mensaje_posicion et rc_send clientes ev htipo hcuerpo]
  refine ⟨rfl, henv, ?_, ?_, ?_⟩
  · intro b hb
    show veces b (envios (difusion_posicion _ _ _ _ _)) = _
    rw [hveces, List.count_filter]
    simpa using hb
  · intro b _ hb h1
    show veces b (envios (difusion_posicion _ _ _ _ _)) = _
    rw [hveces, List.count_filter, h1]
    simpa using hb
  · show veces ev.socket (envios (difusion_posicion _ _ _ _ _)) = _
    rw [hveces]
    apply List.count_eq_zero_of_not_mem
    simp

/-- Witness for C1 (amended): a Position from member 7 of `[7, 8, 9]`, all sends succeeding. -/
theorem posicion_un_envio_por_entrada_witness :
    ∃ r, grupo_thread_evento etq rc_bien 0 [7, 8, 9] (evento_base 7 etq.MENSAJE_POSICION) =
        some r ∧
      r.clientes = [7, 8, 9] ∧
      envios r.traza = ([7, 8, 9].filter (fun c => c ≠ (evento_base 7 etq.MENSAJE_POSICION).socket)).map
        (fun c => (c, (⟨etq.MENSAJE_POSICION,
          Cuerpo.posicion (evento_base 7 etq.MENSAJE_POSICION).posicion⟩ : Paquete))) ∧
      (∀ b, b ≠ (evento_base 7 etq.MENSAJE_POSICION).socket →
        veces b (envios r.traza) = [7, 8, 9].count b) ∧
      (∀ b, b ∈ [7, 8, 9] → b ≠ (evento_base 7 etq.MENSAJE_POSICION).socket →
        [7, 8, 9].count b = 1 → veces b (envios r.traza) = 1) ∧
      veces (evento_base 7 etq.MENSAJE_POSICION).socket (envios r.traza) = 0 :=
  posicion_un_envio_por_entrada etq rc_bien [7, 8, 9] (evento_base 7 etq.MENSAJE_POSICION) 0
    (by decide) rfl (by decide) (fun _ => by simp [rc_bien])

/-! ## Greeting broadcast -/

/-- C6 (as stated, refuted): the vector `[7]` is reached after descriptor 7 greets once; every
send succeeds; a second Greeting read from descriptor 7 is sent to descriptor 7 itself. -/
theorem saludo_al_remitente_contraejemplo :
    Alcanzable etq [7] ∧ (∀ k, 0 ≤ rc_bien k) ∧
    (maneja_mensaje etq rc_bien [7] (evento_base 7 etq.MENSAJE_SALUDO)).traza =
      [Accion.send 7 ⟨etq.MENSAJE_SALUDO, Cuerpo.saludo ⟨[74, 111]⟩⟩ 1] ∧
    ¬ veces 7 (envios
      (maneja_mensaje etq rc_bien [7] (evento_base 7 etq.MENSAJE_SALUDO)).traza) = 0 := by
  refine ⟨⟨0, corrida_7, _, rfl⟩, ?_, by decide, by decide⟩
  intro k
  simp [rc_bien]

/-- C6 (amended): for every membership vector and every Greeting read from descriptor S, when
every send succeeds the sends of the event are, in vector order, one per entry of the vector as
it was before the Greeting, each carrying the tag byte followed by the name struct unchanged;
afterwards the vector is the previous one with S appended.  So a connection is sent the
Greeting as many times as it occurred in the vector, exactly once when it occurred once, and
nothing is sent to S when S was not in the vector yet. -/
theorem saludo_un_envio_por_entrada (et : Etiquetas) (rc_send : Nat → Int)
    (clientes : List Nat) (ev : Evento) (fuel : Nat)
    (hrc : 0 < ev.rc) (htipo : ev.tipo_mensaje = et.MENSAJE_SALUDO)
    (hcuerpo : 0 ≤ ev.rc_cuerpo) (hbien : ∀ k, 0 ≤ rc_send k) :
    ∃ r, grupo_thread_evento et rc_send fuel clientes ev = some r ∧
      r.clientes = clientes ++ [ev.socket] ∧
      envios r.traza = clientes.map
        (fun c => (c, (⟨et.MENSAJE_SALUDO, Cuerpo.saludo ev.saludo⟩ : Paquete))) ∧
      (∀ b, veces b (envios r.traza) = clientes.count b) ∧
      (∀ b, b ∈ clientes → clientes.count b = 1 → veces b (envios r.traza) = 1) ∧
      (ev.socket ∉ clientes → veces ev.socket (envios r.traza) = 0) := by
  have hnrc : ¬ ev.rc ≤ 0 := not_le.mpr hrc
  have henv := envios_difusion_saludo_bien rc_send
    ⟨et.MENSAJE_SALUDO, Cuerpo.saludo ev.saludo⟩ hbien clientes 0
  have hveces : ∀ b, veces b (envios (difusion_saludo rc_send
      ⟨et.MENSAJE_SALUDO, Cuerpo.saludo ev.saludo⟩ 0 clientes)) = clientes.count b := by
    intro b
    rw [henv, veces_map]
  refine ⟨maneja_mensaje et rc_send clientes ev, by simp [grupo_thread_evento, hnrc], ?_⟩
  rw [maneja_mensaje_saludo et rc_send clientes ev htipo hcuerpo]
  refine ⟨rfl, henv, hveces, ?_, ?_⟩
  · intro b _ h1
    show veces b (envios (difusion_saludo _ _ _ _)) = _
    rw [hveces, h1]
  · intro hs
    show veces ev.socket (envios (difusion_saludo _ _ _ _)) = _
    rw [hveces]
    exact List.count_eq_zero_of_not_mem hs

/-- Witness for C6 (amended): the first Greeting of descriptor 9 when the vector is `[7, 8]`. -/
theorem saludo_un_envio_por_entrada_witness :
    ∃ r, grupo_thread_evento etq rc_bien 0 [7, 8] (evento_base 9 etq.MENSAJE_SALUDO) = some r ∧
      r.clientes = [7, 8] ++ [(evento_base 9 etq.MENSAJE_SALUDO).socket] ∧
      envios r.traza = [7, 8].map
        (fun c => (c, (⟨etq.MENSAJE_SALUDO,
          Cuerpo.saludo (evento_base 9 etq.MENSAJE_SALUDO).saludo⟩ : Paquete))) ∧
      (∀ b, veces b (envios r.traza) = [7, 8].count b) ∧
      (∀ b, b ∈ [7, 8] → [7, 8].count b = 1 → veces b (envios r.traza) = 1) ∧
      ((evento_base 9 etq.MENSAJE_SALUDO).socket ∉ [7, 8] →
        veces (evento_base 9 etq.MENSAJE_SALUDO).socket (envios r.traza) = 0) :=
  saludo_un_envio_por_entrada etq rc_bien [7, 8] (evento_base 9 etq.MENSAJE_SALUDO) 0
    (by decide) rfl (by decide) (fun _ => by simp [rc_bien])


/-! ## A failing send inside a broadcast -/

/-- C7 (as stated, refuted): with vector `[7, 8, 9]` and the first send failing, a Position
from 7 is attempted to 8 only, while with no failure it is attempted to 8 and 9; a Greeting
from socket 5 is attempted to 7 only, while with no failure it is attempted to 7, 8 and 9. -/
theorem difusion_cortada_contraejemplo :
    Alcanzable etq [7, 8, 9] ∧
    (envios (maneja_mensaje etq rc_primero_falla [7, 8, 9]
      (evento_base 7 etq.MENSAJE_POSICION)).traza).map Prod.fst = [8] ∧
    (envios (maneja_mensaje etq rc_bien [7, 8, 9]
      (evento_base 7 etq.MENSAJE_POSICION)).traza).map Prod.fst = [8, 9] ∧
    (envios (maneja_mensaje etq rc_primero_falla [7, 8, 9]
      (evento_base 5 etq.MENSAJE_SALUDO)).traza).map Prod.fst = [7] ∧
    (envios (maneja_mensaje etq rc_bien [7, 8, 9]
      (evento_base 5 etq.MENSAJE_SALUDO)).traza).map Prod.fst = [7, 8, 9] :=
  ⟨⟨0, corrida_789, _, rfl⟩, by decide, by decide, by decide, by decide⟩

/-- C7 (amended): in the Greeting and Position broadcasts, for every membership vector and
every pattern of send results, the recipients attempted are the recipients attempted when no
send fails, cut right after the first one whose send fails: with `n` the number of sends that
succeed before the first failure (all of them when none fails), the attempted recipients are
the first `n + 1` of the no-failure list.  The vector after the event does not depend on the
send results. -/
theorem difusion_corta_en_primer_fallo (et : Etiquetas) (rc_send rc_ok : Nat → Int)
    (clientes : List Nat) (ev : Evento)
    (htipo : ev.tipo_mensaje = et.MENSAJE_SALUDO ∨ ev.tipo_mensaje = et.MENSAJE_POSICION)
    (hcuerpo : 0 ≤ ev.rc_cuerpo) (hok : ∀ k, 0 ≤ rc_ok k) :
    ∃ n, n ≤ (envios (maneja_mensaje et rc_ok clientes ev).traza).length ∧
      (∀ i, i < n → 0 ≤ rc_send i) ∧
      (n < (envios (maneja_mensaje et rc_ok clientes ev).traza).length → rc_send n < 0) ∧
      envios (maneja_mensaje et rc_send clientes ev).traza =
        (envios (maneja_mensaje et rc_ok clientes ev).traza).take (n + 1) ∧
      (maneja_mensaje et rc_send clientes ev).clientes =
        (maneja_mensaje et rc_ok clientes ev).clientes := by
  rcases htipo with htipo | htipo
  · rw [maneja_mensaje_saludo et rc_send clientes ev htipo hcuerpo,
      maneja_mensaje_saludo et rc_ok clientes ev htipo hcuerpo]
    obtain ⟨n, hn, hpre, hfallo, henv⟩ := envios_difusion_saludo_corte rc_send
      ⟨et.MENSAJE_SALUDO, Cuerpo.saludo ev.saludo⟩ clientes 0
    have hfull := envios_difusion_saludo_bien rc_ok
      ⟨et.MENSAJE_SALUDO, Cuerpo.saludo ev.saludo⟩ hok clientes 0
    refine ⟨n, ?_, ?_, ?_, ?_, rfl⟩
    · show n ≤ (envios (difusion_saludo _ _ _ _)).length
      rw [hfull]; simpa using hn
    · intro i hi; simpa using hpre i hi
    · intro h
      have h2 : n < (envios (difusion_saludo rc_ok
          ⟨et.MENSAJE_SALUDO, Cuerpo.saludo ev.saludo⟩ 0 clientes)).length := h
      rw [hfull] at h2
      simpa using hfallo (by simpa using h2)
    · show envios (difusion_saludo _ _ _ _) = (envios (difusion_saludo _ _ _ _)).take _
      rw [henv, hfull, List.map_take]
  · rw [maneja_mensaje_posicion et rc_send clientes ev htipo hcuerpo,
      maneja_mensaje_posicion et rc_ok clientes ev htipo hcuerpo]
    obtain ⟨n, hn, hpre, hfallo, henv⟩ := envios_difusion_posicion_corte rc_send
      ⟨et.MENSAJE_POSICION, Cuerpo.posicion ev.posicion⟩ ev.socket clientes 0
    have hfull := envios_difusion_posicion_bien rc_ok
      ⟨et.MENSAJE_POSICION, Cuerpo.posicion ev.posicion⟩ ev.socket hok clientes 0
    refine ⟨n, ?_, ?_, ?_, ?_, rfl⟩
    · show n ≤ (envios (difusion_posicion _ _ _ _ _)).length
      rw [hfull]; simpa using hn
    · intro i hi; simpa using hpre i hi
    · intro h
      have h2 : n < (envios (difusion_posicion rc_ok
          ⟨et.MENSAJE_POSICION, Cuerpo.posicion ev.posicion⟩ ev.socket 0 clientes)).length := h
      rw [hfull] at h2
      simpa using hfallo (by simpa using h2)
    · show envios (difusion_posicion _ _ _ _ _) = (envios (difusion_posicion _ _ _ _ _)).take _
      rw [henv, hfull, List.map_take]

/-- Witness for C7 (amended): a Position from 7 with vector `[7, 8, 9]`, first send failing. -/
theorem difusion_corta_en_primer_fallo_witness :
    ∃ n, n ≤ (envios (maneja_mensaje etq rc_bien [7, 8, 9]
        (evento_base 7 etq.MENSAJE_POSICION)).traza).length ∧
      (∀ i, i < n → 0 ≤ rc_primero_falla i) ∧
      (n < (envios (maneja_mensaje etq rc_bien [7, 8, 9]
        (evento_base 7 etq.MENSAJE_POSICION)).traza).length → rc_primero_falla n < 0) ∧
      envios (maneja_mensaje etq rc_primero_falla [7, 8, 9]
        (evento_base 7 etq.MENSAJE_POSICION)).traza =
        (envios (maneja_mensaje etq rc_bien [7, 8, 9]
          (evento_base 7 etq.MENSAJE_POSICION)).traza).take (n + 1) ∧
      (maneja_mensaje etq rc_primero_falla [7, 8, 9]
        (evento_base 7 etq.MENSAJE_POSICION)).clientes =
        (maneja_mensaje etq rc_bien [7, 8, 9] (evento_base 7 etq.MENSAJE_POSICION)).clientes :=
  difusion_corta_en_primer_fallo etq rc_primero_falla rc_bien [7, 8, 9]
    (evento_base 7 etq.MENSAJE_POSICION) (Or.inr rfl) (by decide) (fun _ => by simp [rc_bien])


/-! ## The disconnect path -/

theorem borra_cliente_eq_erase (s : Nat) (cs : List Nat) : borra_cliente s cs = cs.erase s := by
  induction cs with
  | nil => rfl
  | cons c resto ih =>
    by_cases h : c = s
    · simp [borra_cliente, h]
    · simp [borra_cliente, h, ih, List.erase_cons_tail]

theorem borra_cliente_no_miembro (s : Nat) (cs : List Nat) (h : s ∉ cs) :
    borra_cliente s cs = cs := by
  rw [borra_cliente_eq_erase]
  exact List.erase_of_not_mem h

theorem difusion_desconexion_mono (rc_send : Nat → Int) (b : Paquete) :
    ∀ fuel k cs t, difusion_desconexion rc_send b fuel k cs = some t →
      difusion_desconexion rc_send b (fuel + 1) k cs = some t := by
  intro fuel
  induction fuel with
  | zero =>
    intro k cs t h
    cases cs with
    | nil => simpa [difusion_desconexion] using h
    | cons c resto => simp [difusion_desconexion] at h
  | succ f ih =>
    intro k cs t h
    cases cs with
    | nil => simpa [difusion_desconexion] using h
    | cons c resto =>
      rw [difusion_desconexion] at h
      rw [difusion_desconexion]
      by_cases hk : rc_send k < 0
      · simp only [hk, if_true] at h ⊢
        cases hrec : difusion_desconexion rc_send b f (k + 1) (c :: resto) with
        | none => simp [hrec] at h
        | some t2 =>
          rw [ih _ _ _ hrec]
          simpa [hrec] using h
      · simp only [hk, if_false] at h ⊢
        cases hrec : difusion_desconexion rc_send b f (k + 1) resto with
        | none => simp [hrec] at h
        | some t2 =>
          rw [ih _ _ _ hrec]
          simpa [hrec] using h

theorem difusion_desconexion_mono_le (rc_send : Nat → Int) (b : Paquete) (k : Nat)
    (cs : List Nat) (t : List Accion) (fuel : Nat)
    (h : difusion_desconexion rc_send b fuel k cs = some t) :
    ∀ fuel2, fuel ≤ fuel2 → difusion_desconexion rc_send b fuel2 k cs = some t := by
  intro fuel2 hle
  induction hle with
  | refl => exact h
  | step _ ih => exact difusion_desconexion_mono rc_send b _ k cs t ih

/-- The Disconnect loop returns once enough calls are allowed, provided that after any number
of calls some later `send` succeeds; its successful sends are one per entry, in order, and it
issues nothing but sends of the Disconnect buffer to entries of the vector. -/
theorem difusion_desconexion_termina (rc_send : Nat → Int) (b : Paquete)
    (hev : ∀ k, ∃ m, k ≤ m ∧ 0 ≤ rc_send m) (cs : List Nat) :
    ∀ k, ∃ fuel t, difusion_desconexion rc_send b fuel k cs = some t ∧
      entregas t = cs.map (fun c => (c, b)) ∧
      ∀ a, a ∈ t → ∃ c rc, c ∈ cs ∧ a = Accion.send c b rc := by
  induction cs with
  | nil =>
    intro k
    exact ⟨0, [], rfl, rfl, by simp⟩
  | cons c resto ih =>
    have paso : ∀ d k, 0 ≤ rc_send (k + d) →
        ∃ fuel t, difusion_desconexion rc_send b fuel k (c :: resto) = some t ∧
          entregas t = (c :: resto).map (fun c => (c, b)) ∧
          ∀ a, a ∈ t → ∃ c2 rc, c2 ∈ c :: resto ∧ a = Accion.send c2 b rc := by
      intro d
      induction d with
      | zero =>
        intro k hk
        have hk2 : ¬ rc_send k < 0 := not_lt.mpr (by simpa using hk)
        obtain ⟨f, t, h1, h2, h3⟩ := ih (k + 1)
        refine ⟨f + 1, Accion.send c b (rc_send k) :: t, ?_, ?_, ?_⟩
        · simp [difusion_desconexion, hk2, h1]
        · simp [entregas, hk2, h2]
        · intro a ha
          rcases List.mem_cons.mp ha with rfl | ha
          · exact ⟨c, rc_send k, by simp, rfl⟩
          · obtain ⟨c2, rc, hc2, rfl⟩ := h3 a ha
            exact ⟨c2, rc, List.mem_cons_of_mem _ hc2, rfl⟩
      | succ d ihd =>
        intro k hk
        by_cases hk2 : rc_send k < 0
        · obtain ⟨f, t, h1, h2, h3⟩ := ihd (k + 1)
            (by rwa [show k + 1 + d = k + (d + 1) by omega])
          refine ⟨f + 1, Accion.send c b (rc_send k) :: t, ?_, ?_, ?_⟩
          · simp [difusion_desconexion, hk2, h1]
          · simp [entregas, hk2, h2]
          · intro a ha
            rcases List.mem_cons.mp ha with rfl | ha
            · exact ⟨c, rc_send k, by simp, rfl⟩
            · exact h3 a ha
        · obtain ⟨f, t, h1, h2, h3⟩ := ih (k + 1)
          refine ⟨f + 1, Accion.send c b (rc_send k) :: t, ?_, ?_, ?_⟩
          · simp [difusion_desconexion, hk2, h1]
          · simp [entregas, hk2, h2]
          · intro a ha
            rcases List.mem_cons.mp ha with rfl | ha
            · exact ⟨c, rc_send k, by simp, rfl⟩
            · obtain ⟨c2, rc, hc2, rfl⟩ := h3 a ha
              exact ⟨c2, rc, List.mem_cons_of_mem _ hc2, rfl⟩
    intro k
    obtain ⟨m, hm, hrc⟩ := hev k
    exact paso (m - k) k (by rwa [show k + (m - k) = m by omega])

/-- The whole disconnect path: with enough calls allowed it returns, the vector left is the
result of the erase loop, the trace starts with the unregistration and the `close`, and the
successful sends are one Disconnect buffer per entry left. -/
theorem desconexion_termina (et : Etiquetas) (rc_send : Nat → Int) (clientes : List Nat)
    (ev : Evento) (hrc : ev.rc ≤ 0) (hev : ∀ k, ∃ m, k ≤ m ∧ 0 ≤ rc_send m) :
    ∃ fuel0 t,
      (∀ fuel, fuel0 ≤ fuel → grupo_thread_evento et rc_send fuel clientes ev =
        some ⟨borra_cliente ev.socket clientes,
          Accion.epoll_ctl_del ev.socket :: Accion.close ev.socket :: t⟩) ∧
      entregas t = (borra_cliente ev.socket clientes).map
        (fun c => (c, (⟨et.MENSAJE_DESCONEXION, Cuerpo.desconexion ⟨ev.socket⟩⟩ : Paquete))) ∧
      ∀ a, a ∈ t → ∃ c rc, c ∈ borra_cliente ev.socket clientes ∧
        a = Accion.send c ⟨et.MENSAJE_DESCONEXION, Cuerpo.desconexion ⟨ev.socket⟩⟩ rc := by
  obtain ⟨f, t, h1, h2, h3⟩ := difusion_desconexion_termina rc_send
    ⟨et.MENSAJE_DESCONEXION, Cuerpo.desconexion ⟨ev.socket⟩⟩ hev
    (borra_cliente ev.socket clientes) 0
  refine ⟨f, t, ?_, h2, h3⟩
  intro fuel hle
  have h4 := difusion_desconexion_mono_le rc_send _ 0 _ t f h1 fuel hle
  simp [grupo_thread_evento, hrc, h4]


/-- C4 (the code misses it): the vector `[7, 7]` is reached after descriptor 7 greets twice;
when the tag `recv` on 7 then returns zero, the erase loop removes the first entry only, so
descriptor 7 is still in the vector that the Disconnect loop walks and that the event leaves,
whatever the sends return. -/
theorem desconexion_deja_duplicado :
    Alcanzable etq [7, 7] ∧ 7 ∈ [7, 7] ∧ (evento_cierre 7).rc ≤ 0 ∧
    borra_cliente 7 [7, 7] = [7] ∧
    grupo_thread_evento etq rc_bien 1 [7, 7] (evento_cierre 7) =
      some ⟨[7], [Accion.epoll_ctl_del 7, Accion.close 7,
        Accion.send 7 ⟨etq.MENSAJE_DESCONEXION, Cuerpo.desconexion ⟨7⟩⟩ 1]⟩ ∧
    (∀ rc_send fuel r,
      grupo_thread_evento etq rc_send fuel [7, 7] (evento_cierre 7) = some r → 7 ∈ r.clientes) := by
  refine ⟨⟨0, corrida_77, _, rfl⟩, by decide, by decide, rfl, rfl, ?_⟩
  intro rc_send fuel r h
  have hb : borra_cliente (evento_cierre 7).socket [7, 7] = [7] := rfl
  have hrc : (evento_cierre 7).rc ≤ 0 := by decide
  simp only [grupo_thread_evento, hrc, if_true, hb] at h
  cases hrec : difusion_desconexion rc_send
      ⟨etq.MENSAJE_DESCONEXION, Cuerpo.desconexion ⟨(evento_cierre 7).socket⟩⟩ fuel 0 [7] with
  | none => simp [hrec] at h
  | some t =>
    rw [hrec] at h
    have h2 := Option.some.inj h
    rw [← h2]
    simp

/-- C5 (as stated, refuted): with the reachable vector `[9, 9, 7]`, when the tag `recv` on 7
returns zero and every send succeeds, descriptor 9 is delivered two Disconnect messages. -/
theorem desconexion_dos_copias_contraejemplo :
    Alcanzable etq [9, 9, 7] ∧ (evento_cierre 7).rc ≤ 0 ∧ (∀ k, 0 ≤ rc_bien k) ∧
    grupo_thread_evento etq rc_bien 2 [9, 9, 7] (evento_cierre 7) =
      some ⟨[9, 9], [Accion.epoll_ctl_del 7, Accion.close 7,
        Accion.send 9 ⟨etq.MENSAJE_DESCONEXION, Cuerpo.desconexion ⟨7⟩⟩ 1,
        Accion.send 9 ⟨etq.MENSAJE_DESCONEXION, Cuerpo.desconexion ⟨7⟩⟩ 1]⟩ ∧
    veces 9 (entregas [Accion.epoll_ctl_del 7, Accion.close 7,
        Accion.send 9 ⟨etq.MENSAJE_DESCONEXION, Cuerpo.desconexion ⟨7⟩⟩ 1,
        Accion.send 9 ⟨etq.MENSAJE_DESCONEXION, Cuerpo.desconexion ⟨7⟩⟩ 1]) = 2 := by
  refine ⟨⟨0, corrida_997, _, rfl⟩, by decide, ?_, rfl, by decide⟩
  intro k
  simp [rc_bien]

/-- C5 (amended): when the tag `recv` on descriptor A fails or returns zero and, after any
number of send calls, some later send succeeds, the event is handled to the end (with any
large enough bound on the number of calls) and the successful sends are, in vector order, one
per entry left in the vector after the erase loop, each made of the tag `MENSAJE_DESCONEXION`
followed by a struct whose origin is A.  So a remaining member is delivered as many Disconnect
messages as it has entries in the vector, exactly one when it occurs once. -/
theorem desconexion_una_entrega_por_entrada (et : Etiquetas) (rc_send : Nat → Int)
    (clientes : List Nat) (ev : Evento) (hrc : ev.rc ≤ 0)
    (hev : ∀ k, ∃ m, k ≤ m ∧ 0 ≤ rc_send m) :
    ∃ fuel0 r,
      (∀ fuel, fuel0 ≤ fuel → grupo_thread_evento et rc_send fuel clientes ev = some r) ∧
      r.clientes = borra_cliente ev.socket clientes ∧
      entregas r.traza = r.clientes.map
        (fun c => (c, (⟨et.MENSAJE_DESCONEXION, Cuerpo.desconexion ⟨ev.socket⟩⟩ : Paquete))) ∧
      (∀ b, veces b (entregas r.traza) = r.clientes.count b) ∧
      (∀ b, b ∈ r.clientes → r.clientes.count b = 1 → veces b (entregas r.traza) = 1) := by
  obtain ⟨f, t, h1, h2, _⟩ := desconexion_termina et rc_send clientes ev hrc hev
  have hent : entregas (Accion.epoll_ctl_del ev.socket :: Accion.close ev.socket :: t) =
      (borra_cliente ev.socket clientes).map
        (fun c => (c, (⟨et.MENSAJE_DESCONEXION, Cuerpo.desconexion ⟨ev.socket⟩⟩ : Paquete))) := by
    simpa [entregas] using h2
  refine ⟨f, ⟨borra_cliente ev.socket clientes,
    Accion.epoll_ctl_del ev.socket :: Accion.close ev.socket :: t⟩, h1, rfl, hent, ?_, ?_⟩
  · intro b
    show veces b (entregas (_ :: _ :: t)) = _
    rw [hent, veces_map]
  · intro b _ hb
    show veces b (entregas (_ :: _ :: t)) = _
    rw [hent, veces_map]
    exact hb

/-- Witness for C5 (amended): descriptor 7 of `[7, 8, 9]` closes and the first send fails. -/
theorem desconexion_una_entrega_por_entrada_witness :
    ∃ fuel0 r,
      (∀ fuel, fuel0 ≤ fuel →
        grupo_thread_evento etq rc_primero_falla fuel [7, 8, 9] (evento_cierre 7) = some r) ∧
      r.clientes = borra_cliente (evento_cierre 7).socket [7, 8, 9] ∧
      entregas r.traza = r.clientes.map
        (fun c => (c, (⟨etq.MENSAJE_DESCONEXION,
          Cuerpo.desconexion ⟨(evento_cierre 7).socket⟩⟩ : Paquete))) ∧
      (∀ b, veces b (entregas r.traza) = r.clientes.count b) ∧
      (∀ b, b ∈ r.clientes → r.clientes.count b = 1 → veces b (entregas r.traza) = 1) :=
  desconexion_una_entrega_por_entrada etq rc_primero_falla [7, 8, 9] (evento_cierre 7)
    (by decide) (fun k => ⟨k + 1, Nat.le_succ k, by simp [rc_primero_falla]⟩)

/-- C10 (as stated, refuted): the vector `[9]` is reached after descriptor 9 greets; descriptor
7 is not in it; when the tag `recv` on 7 returns zero, a Disconnect naming 7 is sent to 9. -/
theorem desconexion_no_miembro_contraejemplo :
    Alcanzable etq [9] ∧ 7 ∉ [9] ∧ (evento_cierre 7).rc ≤ 0 ∧
    grupo_thread_evento etq rc_bien 1 [9] (evento_cierre 7) =
      some ⟨[9], [Accion.epoll_ctl_del 7, Accion.close 7,
        Accion.send 9 ⟨etq.MENSAJE_DESCONEXION, Cuerpo.desconexion ⟨7⟩⟩ 1]⟩ :=
  ⟨⟨0, corrida_9, _, rfl⟩, by decide, by decide, rfl⟩

/-- C10 (amended): when the tag `recv` fails or returns zero on a descriptor that is not in the
membership vector, and after any number of send calls some later send succeeds, the worker
unregisters and closes the descriptor, leaves the vector as it was, and still delivers one
Disconnect message naming that descriptor per entry of the vector: the Disconnect broadcast
does not depend on the closed descriptor having been in the vector. -/
theorem desconexion_no_miembro_difunde (et : Etiquetas) (rc_send : Nat → Int)
    (clientes : List Nat) (ev : Evento) (hrc : ev.rc ≤ 0) (hno : ev.socket ∉ clientes)
    (hev : ∀ k, ∃ m, k ≤ m ∧ 0 ≤ rc_send m) :
    ∃ fuel0 r,
      (∀ fuel, fuel0 ≤ fuel → grupo_thread_evento et rc_send fuel clientes ev = some r) ∧
      r.clientes = clientes ∧
      (∃ t, r.traza = Accion.epoll_ctl_del ev.socket :: Accion.close ev.socket :: t ∧
        ∀ a, a ∈ t → ∃ c rc, c ∈ clientes ∧
          a = Accion.send c ⟨et.MENSAJE_DESCONEXION, Cuerpo.desconexion ⟨ev.socket⟩⟩ rc) ∧
      entregas r.traza = clientes.map
        (fun c => (c, (⟨et.MENSAJE_DESCONEXION, Cuerpo.desconexion ⟨ev.socket⟩⟩ : Paquete))) := by
  obtain ⟨f, t, h1, h2, h3⟩ := desconexion_termina et rc_send clientes ev hrc hev
  rw [borra_cliente_no_miembro ev.socket clientes hno] at h1 h2 h3
  refine ⟨f, ⟨clientes, Accion.epoll_ctl_del ev.socket :: Accion.close ev.socket :: t⟩,
    h1, rfl, ⟨t, rfl, h3⟩, ?_⟩
  simpa [entregas] using h2

/-- Witness for C10 (amended): descriptor 7, not in `[8, 9]`, closes; every send succeeds. -/
theorem desconexion_no_miembro_difunde_witness :
    ∃ fuel0 r,
      (∀ fuel, fuel0 ≤ fuel →
        grupo_thread_evento etq rc_bien fuel [8, 9] (evento_cierre 7) = some r) ∧
      r.clientes = [8, 9] ∧
      (∃ t, r.traza = Accion.epoll_ctl_del (evento_cierre 7).socket ::
          Accion.close (evento_cierre 7).socket :: t ∧
        ∀ a, a ∈ t → ∃ c rc, c ∈ [8, 9] ∧
          a = Accion.send c ⟨etq.MENSAJE_DESCONEXION,
            Cuerpo.desconexion ⟨(evento_cierre 7).socket⟩⟩ rc) ∧
      entregas r.traza = [8, 9].map
        (fun c => (c, (⟨etq.MENSAJE_DESCONEXION,
          Cuerpo.desconexion ⟨(evento_cierre 7).socket⟩⟩ : Paquete))) :=
  desconexion_no_miembro_difunde etq rc_bien [8, 9] (evento_cierre 7) (by decide) (by decide)
    (fun k => ⟨k, le_refl k, by simp [rc_bien]⟩)

/-! ## Unicast across groups -/

/-- C2 (the code misses it): one worker holds the vector `[7]`, another worker holds `[9]`;
an Acknowledgment read by the first worker from its member 7 with `cliente_id_destino = 9`
makes that worker call `send` on descriptor 9, a member of the other group. -/
theorem reconocimiento_cruza_grupos :
    Alcanzable etq [7] ∧ Alcanzable etq [9] ∧ 7 ∈ [7] ∧ 9 ∈ [9] ∧ 9 ∉ [7] ∧
    grupo_thread_evento etq rc_bien 0 [7] (evento_reconocimiento 7 9) =
      some ⟨[7], [Accion.send 9
        ⟨etq.MENSAJE_RECONOCIMIENTO, Cuerpo.reconocimiento ⟨7, 9, 1⟩⟩ 1]⟩ :=
  ⟨⟨0, corrida_7, _, rfl⟩, ⟨0, corrida_9, _, rfl⟩, by decide, by decide, by decide, rfl⟩

/-- Witness for C3: an Acknowledgment from 7 addressed to 9 while the vector is `[7, 8]`. -/
theorem unicast_un_solo_envio_witness :
    grupo_thread_evento etq rc_bien 0 [7, 8] (evento_reconocimiento 7 9) =
      some ⟨[7, 8], [Accion.send (evento_reconocimiento 7 9).reconocimiento.cliente_id_destino
        ⟨etq.MENSAJE_RECONOCIMIENTO,
          Cuerpo.reconocimiento (evento_reconocimiento 7 9).reconocimiento⟩ (rc_bien 0)]⟩ :=
  (unicast_un_solo_envio etq rc_bien [7, 8] (evento_reconocimiento 7 9) 0
    (by decide) (by decide)).1 rfl

/-! ## The join handshake in `main` -/

/-- C8 (the code misses it): a Join for group 3 read in full from descriptor 7 leaves
`grupos_sets` empty (no entry for group 3), starts no worker, and leaves descriptor 7
registered on the epoll instance of `main`; only `clientes_conocidos` grows, and no system
call is issued. -/
theorem union_no_entrega_al_grupo :
    0 < union_grupo_3.rc ∧ 0 ≤ union_grupo_3.grupo ∧
    main_datos_cliente router_inicial union_grupo_3 = (⟨[3, 7], [], [], [7]⟩, []) ∧
    busca_grupo 3 (main_datos_cliente router_inicial union_grupo_3).1.grupos_sets = none ∧
    7 ∈ (main_datos_cliente router_inicial union_grupo_3).1.registrados :=
  ⟨by decide, by decide, rfl, rfl, by decide⟩

/-- C9 (the code misses it): handling a Join for group 3 read in full from descriptor 7 issues
no `send` at all, so no JoinAck goes to descriptor 7; indeed no event makes this branch of
`main` call `send`. -/
theorem union_sin_confirmacion :
    0 < union_grupo_3.rc ∧ 0 ≤ union_grupo_3.grupo ∧
    envios (main_datos_cliente router_inicial union_grupo_3).2 = [] ∧
    (∀ r ev, envios (main_datos_cliente r ev).2 = []) := by
  refine ⟨by decide, by decide, rfl, ?_⟩
  intro r ev
  unfold main_datos_cliente
  split_ifs <;> rfl


/-! ## Unrecognized tags -/

/-- In the `switch`, a tag that is none of the five `case` labels reaches `default`. -/
theorem maneja_mensaje_default (et : Etiquetas) (rc_send : Nat → Int) (clientes : List Nat)
    (ev : Evento) (h1 : ev.tipo_mensaje ≠ et.MENSAJE_SALUDO)
    (h2 : ev.tipo_mensaje ≠ et.MENSAJE_POSICION)
    (h3 : ev.tipo_mensaje ≠ et.MENSAJE_RECONOCIMIENTO)
    (h4 : ev.tipo_mensaje ≠ et.MENSAJE_NOMBRE_REQUEST)
    (h5 : ev.tipo_mensaje ≠ et.MENSAJE_NOMBRE_REPLY) :
    maneja_mensaje et rc_send clientes ev = ⟨clientes, []⟩ := by
  simp [maneja_mensaje, h1, h2, h3, h4, h5]

/-- C11: when the tag `recv` returned a byte that is none of `MENSAJE_SALUDO`,
`MENSAJE_POSICION`, `MENSAJE_RECONOCIMIENTO`, `MENSAJE_NOMBRE_REQUEST`, `MENSAJE_NOMBRE_REPLY`,
the event leaves `clientes` as it was and its trace is empty: no `send` to any descriptor, no
`close` and no `epoll_ctl(DEL)` of the sending descriptor, whatever the sends would return. -/
theorem etiqueta_desconocida_se_descarta (et : Etiquetas) (rc_send : Nat → Int) (fuel : Nat)
    (clientes : List Nat) (ev : Evento) (hrc : 0 < ev.rc)
    (h1 : ev.tipo_mensaje ≠ et.MENSAJE_SALUDO)
    (h2 : ev.tipo_mensaje ≠ et.MENSAJE_POSICION)
    (h3 : ev.tipo_mensaje ≠ et.MENSAJE_RECONOCIMIENTO)
    (h4 : ev.tipo_mensaje ≠ et.MENSAJE_NOMBRE_REQUEST)
    (h5 : ev.tipo_mensaje ≠ et.MENSAJE_NOMBRE_REPLY) :
    grupo_thread_evento et rc_send fuel clientes ev = some ⟨clientes, []⟩ ∧
    (∀ r, grupo_thread_evento et rc_send fuel clientes ev = some r →
      r.clientes = clientes ∧ envios r.traza = [] ∧
      Accion.close ev.socket ∉ r.traza ∧ Accion.epoll_ctl_del ev.socket ∉ r.traza) := by
  have hnrc : ¬ ev.rc ≤ 0 := not_le.mpr hrc
  have hev : grupo_thread_evento et rc_send fuel clientes ev = some ⟨clientes, []⟩ := by
    simp [grupo_thread_evento, hnrc, maneja_mensaje_default et rc_send clientes ev h1 h2 h3 h4 h5]
  refine ⟨hev, ?_⟩
  intro r hr
  rw [hev] at hr
  have h := Option.some.inj hr
  rw [← h]
  exact ⟨rfl, rfl, by simp, by simp⟩

/-- Witness for C11: the byte 99 read from member 7 of `[7, 8]`. -/
theorem etiqueta_desconocida_se_descarta_witness :
    grupo_thread_evento etq rc_bien 0 [7, 8] (evento_base 7 99) = some ⟨[7, 8], []⟩ ∧
    (∀ r, grupo_thread_evento etq rc_bien 0 [7, 8] (evento_base 7 99) = some r →
      r.clientes = [7, 8] ∧ envios r.traza = [] ∧
      Accion.close (evento_base 7 99).socket ∉ r.traza ∧
      Accion.epoll_ctl_del (evento_base 7 99).socket ∉ r.traza) :=
  etiqueta_desconocida_se_descarta etq rc_bien 0 [7, 8] (evento_base 7 99)
    (by decide) (by decide) (by decide) (by decide) (by decide) (by decide)


/-! ## What changes the membership vector -/

theorem maneja_mensaje_clientes_igual (et : Etiquetas) (rc_send : Nat → Int)
    (clientes : List Nat) (ev : Evento)
    (h : ev.tipo_mensaje ≠ et.MENSAJE_SALUDO ∨ ev.rc_cuerpo < 0) :
    (maneja_mensaje et rc_send clientes ev).clientes = clientes := by
  unfold maneja_mensaje
  rcases h with h | h
  · rw [if_neg h]
    split_ifs <;> rfl
  · simp only [h, if_true]
    split_ifs <;> rfl

theorem borra_cliente_primera (s : Nat) (l2 : List Nat) :
    ∀ l1 : List Nat, s ∉ l1 → borra_cliente s (l1 ++ s :: l2) = l1 ++ l2 := by
  intro l1
  induction l1 with
  | nil => intro _; simp [borra_cliente]
  | cons c resto ih =>
    intro h
    have hc : c ≠ s := fun e => h (by simp [e])
    have hr : s ∉ resto := fun e => h (List.mem_cons_of_mem _ e)
    simp [borra_cliente, hc, ih hr]

theorem borra_cliente_count_otro (s b : Nat) (hb : b ≠ s) (cs : List Nat) :
    (borra_cliente s cs).count b = cs.count b := by
  induction cs with
  | nil => rfl
  | cons c resto ih =>
    by_cases hc : c = s
    · subst hc
      simp [borra_cliente, List.count_cons, Ne.symm hb]
    · simp [borra_cliente, hc, List.count_cons, ih]

theorem borra_cliente_filter_otros (s : Nat) (cs : List Nat) :
    (borra_cliente s cs).filter (fun c => c ≠ s) = cs.filter (fun c => c ≠ s) := by
  induction cs with
  | nil => rfl
  | cons c resto ih =>
    by_cases hc : c = s
    · simp [borra_cliente, hc]
    · simp only [borra_cliente, hc, if_false, List.filter_cons, ih]

theorem borra_cliente_unica (s : Nat) (cs : List Nat) (h : cs.count s ≤ 1) :
    s ∉ borra_cliente s cs := by
  induction cs with
  | nil => simp [borra_cliente]
  | cons c resto ih =>
    by_cases hc : c = s
    · subst hc
      have h0 : resto.count c = 0 := by
        rw [List.count_cons_self] at h
        omega
      simpa [borra_cliente] using List.count_eq_zero.mp h0
    · have h1 : resto.count s ≤ 1 := by
        rw [List.count_cons] at h
        simp only [beq_iff_eq, hc, if_false, Nat.add_zero] at h
        exact h
      have h2 := ih h1
      simp only [borra_cliente, hc, if_false, List.mem_cons, not_or]
      exact ⟨fun e => hc e.symm, h2⟩

/-- The events that leave the membership vector as it was, and what the other two do to the
entries of other connections.  A Greeting read from descriptor c (tag and payload `recv` both
succeeded) leaves the vector with c appended, whatever the sends return.  Any other tag
(Position, Acknowledgment, NameRequest, NameReply, unrecognized), and a Greeting whose payload
`recv` failed, leave the vector exactly as it was, whatever the sends return.  A failed or
zero-length tag `recv` on c touches no entry of another connection, and leaves no entry of c
when c had at most one. -/
theorem membresia_marco (et : Etiquetas) (rc_send : Nat → Int) (fuel : Nat)
    (clientes : List Nat) (ev : Evento) :
    (0 < ev.rc → ev.tipo_mensaje = et.MENSAJE_SALUDO → 0 ≤ ev.rc_cuerpo →
      ∃ t, grupo_thread_evento et rc_send fuel clientes ev =
        some ⟨clientes ++ [ev.socket], t⟩) ∧
    (0 < ev.rc → (ev.tipo_mensaje ≠ et.MENSAJE_SALUDO ∨ ev.rc_cuerpo < 0) →
      ∃ t, grupo_thread_evento et rc_send fuel clientes ev = some ⟨clientes, t⟩) ∧
    (ev.rc ≤ 0 → ∀ r, grupo_thread_evento et rc_send fuel clientes ev = some r →
      r.clientes.filter (fun c => c ≠ ev.socket) = clientes.filter (fun c => c ≠ ev.socket) ∧
      (∀ b, b ≠ ev.socket → r.clientes.count b = clientes.count b) ∧
      (clientes.count ev.socket ≤ 1 → ev.socket ∉ r.clientes)) := by
  refine ⟨?_, ?_, ?_⟩
  · intro hrc htipo hcuerpo
    have hnrc : ¬ ev.rc ≤ 0 := not_le.mpr hrc
    refine ⟨difusion_saludo rc_send ⟨et.MENSAJE_SALUDO, Cuerpo.saludo ev.saludo⟩ 0 clientes, ?_⟩
    simp [grupo_thread_evento, hnrc, maneja_mensaje_saludo et rc_send clientes ev htipo hcuerpo]
  · intro hrc h
    have hnrc : ¬ ev.rc ≤ 0 := not_le.mpr hrc
    refine ⟨(maneja_mensaje et rc_send clientes ev).traza, ?_⟩
    have hc := maneja_mensaje_clientes_igual et rc_send clientes ev h
    simp only [grupo_thread_evento, hnrc, if_false]
    congr 1
    cases hm : maneja_mensaje et rc_send clientes ev with
    | mk c t =>
      rw [hm] at hc
      simp only at hc
      rw [hc]
  · intro hrc r hr
    have hcl : r.clientes = borra_cliente ev.socket clientes := by
      simp only [grupo_thread_evento, hrc, if_true] at hr
      cases hrec : difusion_desconexion rc_send
          ⟨et.MENSAJE_DESCONEXION, Cuerpo.desconexion ⟨ev.socket⟩⟩ fuel 0
          (borra_cliente ev.socket clientes) with
      | none => simp [hrec] at hr
      | some t =>
        rw [hrec] at hr
        have h2 := Option.some.inj hr
        rw [← h2]
    rw [hcl]
    exact ⟨borra_cliente_filter_otros ev.socket clientes,
      fun b hb => borra_cliente_count_otro ev.socket b hb clientes,
      borra_cliente_unica ev.socket clientes⟩

/-- C12 (the code misses it): the vector `[7, 8, 7]` is reached after descriptor 7 greets, 8
greets and 7 greets again.  When the tag `recv` on 7 then returns zero, handling the event
takes out the first entry only: the vector left is `[8, 7]`, so descriptor 7 was not removed
from the membership vector, whatever the sends return. -/
theorem cierre_no_quita_al_cliente :
    Alcanzable etq [7, 8, 7] ∧ (evento_cierre 7).rc ≤ 0 ∧
    grupo_thread_evento etq rc_bien 2 [7, 8, 7] (evento_cierre 7) =
      some ⟨[8, 7], [Accion.epoll_ctl_del 7, Accion.close 7,
        Accion.send 8 ⟨etq.MENSAJE_DESCONEXION, Cuerpo.desconexion ⟨7⟩⟩ 1,
        Accion.send 7 ⟨etq.MENSAJE_DESCONEXION, Cuerpo.desconexion ⟨7⟩⟩ 1]⟩ ∧
    (∀ rc_send fuel r,
      grupo_thread_evento etq rc_send fuel [7, 8, 7] (evento_cierre 7) = some r →
        r.clientes = [8, 7] ∧ 7 ∈ r.clientes) := by
  refine ⟨⟨0, corrida_787, _, rfl⟩, by decide, rfl, ?_⟩
  intro rc_send fuel r h
  have hb : borra_cliente (evento_cierre 7).socket [7, 8, 7] = [8, 7] := rfl
  have hrc : (evento_cierre 7).rc ≤ 0 := by decide
  simp only [grupo_thread_evento, hrc, if_true, hb] at h
  cases hrec : difusion_desconexion rc_send
      ⟨etq.MENSAJE_DESCONEXION, Cuerpo.desconexion ⟨(evento_cierre 7).socket⟩⟩ fuel 0 [8, 7] with
  | none => simp [hrec] at h
  | some t =>
    rw [hrec] at h
    have h2 := Option.some.inj h
    rw [← h2]
    exact ⟨rfl, by simp⟩

/-! ## The retry loop of the Disconnect broadcast -/

theorem exitos_add (rc_send : Nat → Int) :
    ∀ m k n, exitos rc_send k (m + n) = exitos rc_send k m + exitos rc_send (k + m) n := by
  intro m
  induction m with
  | zero => intro k n; simp [exitos]
  | succ m ih =>
    intro k n
    rw [show m + 1 + n = (m + n) + 1 by omega]
    simp only [exitos]
    rw [ih (k + 1) n, show k + 1 + m = k + (m + 1) by omega]
    omega

theorem exitos_todo_falla (rc_send : Nat → Int) :
    ∀ n k, (∀ i, k ≤ i → rc_send i < 0) → exitos rc_send k n = 0 := by
  intro n
  induction n with
  | zero => intro k _; rfl
  | succ n ih =>
    intro k h
    simp only [exitos, h k (le_refl k), if_true]
    rw [ih (k + 1) (fun i hi => h i (by omega))]

theorem exitos_desde_fallo (rc_send : Nat → Int) (K : Nat)
    (h : ∀ k, K ≤ k → rc_send k < 0) :
    ∀ n, exitos rc_send 0 n ≤ exitos rc_send 0 K ∧
      (K ≤ n → exitos rc_send 0 n = exitos rc_send 0 K) := by
  intro n
  rcases Nat.lt_or_ge n K with hn | hn
  · refine ⟨?_, fun h2 => by omega⟩
    have := exitos_add rc_send n 0 (K - n)
    rw [show n + (K - n) = K by omega] at this
    omega
  · have h1 := exitos_add rc_send K 0 (n - K)
    rw [show K + (n - K) = n by omega, Nat.zero_add] at h1
    have h2 := exitos_todo_falla rc_send (n - K) K h
    rw [h2] at h1
    exact ⟨by omega, fun _ => by omega⟩

theorem difusion_desconexion_isSome_iff (rc_send : Nat → Int) (b : Paquete) :
    ∀ fuel k cs, (difusion_desconexion rc_send b fuel k cs).isSome = true ↔
      cs.length ≤ exitos rc_send k fuel := by
  intro fuel
  induction fuel with
  | zero =>
    intro k cs
    cases cs with
    | nil => simp [difusion_desconexion, exitos]
    | cons c resto => simp [difusion_desconexion, exitos]
  | succ f ih =>
    intro k cs
    cases cs with
    | nil => simp [difusion_desconexion]
    | cons c resto =>
      by_cases hk : rc_send k < 0
      · have h1 := ih (k + 1) (c :: resto)
        have h2 : (difusion_desconexion rc_send b (f + 1) k (c :: resto)).isSome =
            (difusion_desconexion rc_send b f (k + 1) (c :: resto)).isSome := by
          rw [difusion_desconexion, if_pos hk]
          cases difusion_desconexion rc_send b f (k + 1) (c :: resto) <;> rfl
        rw [h2, h1]
        simp [exitos, hk]
      · have h1 := ih (k + 1) resto
        have h2 : (difusion_desconexion rc_send b (f + 1) k (c :: resto)).isSome =
            (difusion_desconexion rc_send b f (k + 1) resto).isSome := by
          rw [difusion_desconexion, if_neg hk]
          cases difusion_desconexion rc_send b f (k + 1) resto <;> rfl
        rw [h2, h1]
        simp only [exitos, hk, if_false, List.length_cons]
        omega

theorem intentos_de_difusion (rc_send : Nat → Int) (b : Paquete) :
    ∀ fuel k cs t, difusion_desconexion rc_send b fuel k cs = some t →
      intentos_desconexion rc_send b fuel k cs = t := by
  intro fuel
  induction fuel with
  | zero =>
    intro k cs t h
    cases cs with
    | nil =>
      have := Option.some.inj (by simpa [difusion_desconexion] using h : some ([] : List Accion) = some t)
      simpa [intentos_desconexion] using this
    | cons c resto => simp [difusion_desconexion] at h
  | succ f ih =>
    intro k cs t h
    cases cs with
    | nil =>
      have := Option.some.inj (by simpa [difusion_desconexion] using h : some ([] : List Accion) = some t)
      simpa [intentos_desconexion] using this
    | cons c resto =>
      rw [difusion_desconexion] at h
      rw [intentos_desconexion]
      by_cases hk : rc_send k < 0
      · simp only [hk, if_true] at h ⊢
        cases hrec : difusion_desconexion rc_send b f (k + 1) (c :: resto) with
        | none => simp [hrec] at h
        | some t2 =>
          rw [hrec] at h
          rw [ih _ _ _ hrec]
          exact Option.some.inj h
      · simp only [hk, if_false] at h ⊢
        cases hrec : difusion_desconexion rc_send b f (k + 1) resto with
        | none => simp [hrec] at h
        | some t2 =>
          rw [hrec] at h
          rw [ih _ _ _ hrec]
          exact Option.some.inj h

/-- The `i`-th call of the Disconnect loop is addressed to the entry whose index is the number
of calls that succeeded before it. -/
theorem intentos_indice (rc_send : Nat → Int) (b : Paquete) :
    ∀ n k cs i, i < (intentos_desconexion rc_send b n k cs).length →
      ∃ c, cs[exitos rc_send k i]? = some c ∧
        (intentos_desconexion rc_send b n k cs)[i]? =
          some (Accion.send c b (rc_send (k + i))) := by
  intro n
  induction n with
  | zero =>
    intro k cs i hi
    cases cs <;> simp [intentos_desconexion] at hi
  | succ n ih =>
    intro k cs i hi
    cases cs with
    | nil => simp [intentos_desconexion] at hi
    | cons c resto =>
      cases i with
      | zero =>
        refine ⟨c, by simp [exitos], ?_⟩
        rw [intentos_desconexion]
        split_ifs <;> simp
      | succ j =>
        rw [intentos_desconexion] at hi ⊢
        by_cases hk : rc_send k < 0
        · simp only [hk, if_true, List.length_cons] at hi ⊢
          obtain ⟨c2, h1, h2⟩ := ih (k + 1) (c :: resto) j (by omega)
          refine ⟨c2, ?_, ?_⟩
          · simpa [exitos, hk] using h1
          · rw [List.getElem?_cons_succ, h2, show k + 1 + j = k + (j + 1) by omega]
        · simp only [hk, if_false, List.length_cons] at hi ⊢
          obtain ⟨c2, h1, h2⟩ := ih (k + 1) resto j (by omega)
          refine ⟨c2, ?_, ?_⟩
          · simp only [exitos, hk, if_false]
            rw [show 1 + exitos rc_send (k + 1) j = exitos rc_send (k + 1) j + 1 by omega,
              List.getElem?_cons_succ]
            exact h1
          · rw [List.getElem?_cons_succ, h2, show k + 1 + j = k + (j + 1) by omega]

/-- While fewer calls have succeeded than there are entries, the loop is still running: every
one of the `n` calls allowed was made. -/
theorem intentos_length (rc_send : Nat → Int) (b : Paquete) :
    ∀ n k cs, exitos rc_send k n < cs.length →
      (intentos_desconexion rc_send b n k cs).length = n := by
  intro n
  induction n with
  | zero =>
    intro k cs _
    cases cs <;> rfl
  | succ n ih =>
    intro k cs h
    cases cs with
    | nil => simp at h
    | cons c resto =>
      rw [intentos_desconexion]
      by_cases hk : rc_send k < 0
      · simp only [exitos, hk, if_true, Nat.zero_add] at h
        simp [hk, ih (k + 1) (c :: resto) h]
      · simp only [exitos, hk, if_false, List.length_cons] at h
        simp [hk, ih (k + 1) resto (by omega)]

/-- The disconnect path as a function of the Disconnect loop. -/
theorem grupo_thread_evento_cierre (et : Etiquetas) (rc_send : Nat → Int) (fuel : Nat)
    (clientes : List Nat) (ev : Evento) (hrc : ev.rc ≤ 0) :
    grupo_thread_evento et rc_send fuel clientes ev =
      (difusion_desconexion rc_send (buffer_desconexion et ev.socket) fuel 0
        (borra_cliente ev.socket clientes)).map
        (fun t => ⟨borra_cliente ev.socket clientes,
          Accion.epoll_ctl_del ev.socket :: Accion.close ev.socket :: t⟩) := by
  simp [grupo_thread_evento, hrc, buffer_desconexion]

/-- C13: in the Disconnect broadcast that follows a failed or zero-length tag `recv`, the
`i`-th `send` call is addressed to the entry of the remaining vector whose index is the number
of calls that succeeded before it: a recipient whose send fails is called again and no later
recipient is called until a send to it succeeds.  The event is handled within a number of
calls exactly when as many calls succeed as there are entries.  So the broadcast terminates
when, after any number of calls, some later call succeeds (no recipient fails forever); and
when from some call on every send fails while an entry is still pending, the event is never
handled to the end, the calls go on without bound, and all of them address that same entry. -/
theorem desconexion_reintenta_hasta_exito (et : Etiquetas) (rc_send : Nat → Int)
    (clientes : List Nat) (ev : Evento) (hrc : ev.rc ≤ 0) :
    (∀ n i, i < (intentos_desconexion rc_send (buffer_desconexion et ev.socket) n 0
        (borra_cliente ev.socket clientes)).length →
      ∃ c, (borra_cliente ev.socket clientes)[exitos rc_send 0 i]? = some c ∧
        (intentos_desconexion rc_send (buffer_desconexion et ev.socket) n 0
          (borra_cliente ev.socket clientes))[i]? =
          some (Accion.send c (buffer_desconexion et ev.socket) (rc_send i))) ∧
    (∀ fuel r, grupo_thread_evento et rc_send fuel clientes ev = some r →
      r.traza = Accion.epoll_ctl_del ev.socket :: Accion.close ev.socket ::
        intentos_desconexion rc_send (buffer_desconexion et ev.socket) fuel 0
          (borra_cliente ev.socket clientes)) ∧
    (∀ fuel, (grupo_thread_evento et rc_send fuel clientes ev).isSome = true ↔
      (borra_cliente ev.socket clientes).length ≤ exitos rc_send 0 fuel) ∧
    ((∀ k, ∃ m, k ≤ m ∧ 0 ≤ rc_send m) →
      ∃ fuel0 r, ∀ fuel, fuel0 ≤ fuel →
        grupo_thread_evento et rc_send fuel clientes ev = some r) ∧
    (∀ K, exitos rc_send 0 K < (borra_cliente ev.socket clientes).length →
      (∀ k, K ≤ k → rc_send k < 0) →
      (∀ fuel, grupo_thread_evento et rc_send fuel clientes ev = none) ∧
      (∀ n, (intentos_desconexion rc_send (buffer_desconexion et ev.socket) n 0
        (borra_cliente ev.socket clientes)).length = n) ∧
      (∀ i, K ≤ i → exitos rc_send 0 i = exitos rc_send 0 K)) := by
  have hiff : ∀ fuel, (grupo_thread_evento et rc_send fuel clientes ev).isSome = true ↔
      (borra_cliente ev.socket clientes).length ≤ exitos rc_send 0 fuel := by
    intro fuel
    rw [grupo_thread_evento_cierre et rc_send fuel clientes ev hrc,
      ← difusion_desconexion_isSome_iff rc_send (buffer_desconexion et ev.socket) fuel 0]
    cases difusion_desconexion rc_send (buffer_desconexion et ev.socket) fuel 0
      (borra_cliente ev.socket clientes) <;> simp
  refine ⟨?_, ?_, hiff, ?_, ?_⟩
  · intro n i hi
    have h := intentos_indice rc_send (buffer_desconexion et ev.socket) n 0
      (borra_cliente ev.socket clientes) i hi
    simpa using h
  · intro fuel r hr
    rw [grupo_thread_evento_cierre et rc_send fuel clientes ev hrc] at hr
    cases hrec : difusion_desconexion rc_send (buffer_desconexion et ev.socket) fuel 0
        (borra_cliente ev.socket clientes) with
    | none => simp [hrec] at hr
    | some t =>
      rw [hrec] at hr
      have h2 := Option.some.inj hr
      rw [← h2, intentos_de_difusion rc_send _ fuel 0 _ t hrec]
  · intro hev
    obtain ⟨f, t, h1, _, _⟩ := desconexion_termina et rc_send clientes ev hrc hev
    exact ⟨f, _, h1⟩
  · intro K hK hfalla
    have hdesde := exitos_desde_fallo rc_send K hfalla
    refine ⟨?_, ?_, fun i hi => (hdesde i).2 hi⟩
    · intro fuel
      have h1 := (hdesde fuel).1
      have h2 : ¬ (grupo_thread_evento et rc_send fuel clientes ev).isSome = true := by
        rw [hiff fuel]
        omega
      cases hres : grupo_thread_evento et rc_send fuel clientes ev with
      | none => rfl
      | some r => simp [hres] at h2
    · intro n
      exact intentos_length rc_send _ n 0 _ (by have := (hdesde n).1; omega)

/-- Witness for C13: descriptor 7 of `[7, 8, 9]` closes.  When only the first send fails the
event is handled to the end; when every send fails it never is, and after `n` calls allowed
`n` calls were made. -/
theorem desconexion_reintenta_hasta_exito_witness :
    (∃ fuel0 r, ∀ fuel, fuel0 ≤ fuel →
      grupo_thread_evento etq rc_primero_falla fuel [7, 8, 9] (evento_cierre 7) = some r) ∧
    (∀ fuel, grupo_thread_evento etq rc_mal fuel [7, 8, 9] (evento_cierre 7) = none) ∧
    (∀ n, (intentos_desconexion rc_mal (buffer_desconexion etq (evento_cierre 7).socket) n 0
      (borra_cliente (evento_cierre 7).socket [7, 8, 9])).length = n) ∧
    (∀ i, 0 ≤ i → exitos rc_mal 0 i = exitos rc_mal 0 0) :=
  ⟨(desconexion_reintenta_hasta_exito etq rc_primero_falla [7, 8, 9] (evento_cierre 7)
      (by decide)).2.2.2.1 (fun k => ⟨k + 1, Nat.le_succ k, by simp [rc_primero_falla]⟩),
    (desconexion_reintenta_hasta_exito etq rc_mal [7, 8, 9] (evento_cierre 7)
      (by decide)).2.2.2.2 0 (by decide) (fun k _ => by simp [rc_mal])⟩

end Arc
